import Mathlib

/-!
Verification of the echelon document-verification pipeline against its
specification.  Scores are modelled as rationals (`ℚ`).  The Python module
`doc_verification` itself is not among the repository sources (only its
`README.md` and the technical-specification document are), so its scoring
and decision functions are modelled from the specification.  The JavaScript
sources (`behavior_tracker.js`, `kycApi.js`) are embedded directly.
-/

namespace Echelon

/-- A rational lies in the unit interval. -/
def mem01 (x : ℚ) : Prop := 0 ≤ x ∧ x ≤ 1

/-- Clamp a rational to the unit interval. -/
def clamp01 (x : ℚ) : ℚ := min (max x 0) 1

/-! ## Decision Engine (modelled from the spec, §4.5) -/

/-- The four possible outcomes of the Decision Engine. -/
inductive Disposition
  | APPROVE
  | MANUAL_REVIEW
  | REJECT
  | REQUEST_NEW_IMAGE
  deriving DecidableEq, Repr

/-- Escalation severity of a disposition.  The base thresholds never produce
`REQUEST_NEW_IMAGE`, and the quality override forces it independent of the
other scores, so for every override to be an escalation it must rank above
`REJECT`. -/
def severity : Disposition → ℕ
  | Disposition.APPROVE => 0
  | Disposition.MANUAL_REVIEW => 1
  | Disposition.REJECT => 2
  | Disposition.REQUEST_NEW_IMAGE => 3

/-- Modelled from the spec: the Python decision engine is missing from the
sources; `quality_risk = 1 − quality_score` (spec §4.5 step 1,
`doc_verification/README.md` line 118). -/
def quality_risk (q : ℚ) : ℚ := 1 - q

/-- Modelled from the spec: the fused risk score of the missing decision
engine (spec §4.5 step 1).  With a mismatch score the weights are
0.25 / 0.40 / 0.35 on quality risk, forgery and mismatch; when the mismatch
score is undefined the two remaining weights are re-normalized
proportionally, i.e. divided by their sum 0.65. -/
def doc_risk_score (q f : ℚ) (m : Option ℚ) : ℚ :=
  match m with
  | some ms => 0.25 * quality_risk q + 0.40 * f + 0.35 * ms
  | none => (0.25 * quality_risk q + 0.40 * f) / 0.65

/-- Modelled from the spec: base decision thresholds of the missing decision
engine (spec §4.5 step 2, technical specs PHASE 3): `> 0.75` REJECT,
`0.35 < r ≤ 0.75` MANUAL_REVIEW, `≤ 0.35` APPROVE. -/
def base_disposition (r : ℚ) : Disposition :=
  if r > 0.75 then Disposition.REJECT
  else if r > 0.35 then Disposition.MANUAL_REVIEW
  else Disposition.APPROVE

/-- Modelled from the spec: the missing decision engine (spec §4.5,
technical specs PHASE 2–4).  Overrides run after the base threshold in a
fixed order and the first applicable one wins: forgery > 0.80 forces
REJECT; quality < 0.30 forces REQUEST_NEW_IMAGE; mismatch > 0.60 forces at
least MANUAL_REVIEW. -/
def decide_disposition (q f : ℚ) (m : Option ℚ) : Disposition :=
  let base := base_disposition (doc_risk_score q f m)
  if f > 0.80 then Disposition.REJECT
  else if q < 0.30 then Disposition.REQUEST_NEW_IMAGE
  else
    match m with
    | some ms =>
        if ms > 0.60 then
          (if base = Disposition.APPROVE then Disposition.MANUAL_REVIEW else base)
        else base
    | none => base

/-! ## Quality Assessor sub-scores (modelled from the spec, §4.1) -/

/-- Modelled from the spec: blur sub-score of the missing quality assessor,
`min(variance / 50.0, 1.0)` (spec §4.1, technical specs §2 Component 1). -/
def blur_score (v : ℚ) : ℚ := min (v / 50) 1

/-- Modelled from the spec: resolution sub-score,
`min((width/480 + height/320) / 2, 1.0)`. -/
def resolution_score (w h : ℚ) : ℚ := min ((w / 480 + h / 320) / 2) 1

/-- Modelled from the spec: brightness sub-score,
`max(1.0 − |mean − 130| / 130, 0.0)`. -/
def brightness_score (mean : ℚ) : ℚ := max (1 - |mean - 130| / 130) 0

/-- Modelled from the spec: the border sub-score has no closed formula in
the sources beyond penalizing edge density in the margin; per the §3
invariant the raw value is clamped to the unit interval before fusion. -/
def border_score (raw : ℚ) : ℚ := clamp01 raw

/-- Modelled from the spec: the contrast sub-score scales linearly with the
pixel standard deviation, saturating at a configured floor; per the §3
invariant the raw value is clamped to the unit interval before fusion. -/
def contrast_score (raw : ℚ) : ℚ := clamp01 raw

/-- Modelled from the spec: quality fusion,
`0.30·blur + 0.25·resolution + 0.15·brightness + 0.15·border +
0.15·contrast`. -/
def quality_score (b r br bo c : ℚ) : ℚ :=
  0.30 * b + 0.25 * r + 0.15 * br + 0.15 * bo + 0.15 * c

/-! ## Forgery Ensemble (modelled from the spec, §4.2) -/

/-- Modelled from the spec: compression-artifact (ELA) sub-score of the
missing forgery detector, `min(std/30 + (max/255)·0.3, 1.0)`. -/
def ela_score (std mx : ℚ) : ℚ := min (std / 30 + mx / 255 * 0.3) 1

/-- Modelled from the spec: noise-uniformity sub-score,
`max(1.0 − block_std_variance/5, 0.0)`. -/
def noise_score (v : ℚ) : ℚ := max (1 - v / 5) 0

/-- Modelled from the spec: edge-consistency sub-score,
`min(|edge_density − 0.10|·3, 1.0)`. -/
def edge_score (d : ℚ) : ℚ := min (|d - 0.10| * 3) 1

/-- Modelled from the spec: frequency-anomaly sub-score,
`min(|ratio − 2.0|/5, 1.0)`. -/
def freq_score (r : ℚ) : ℚ := min (|r - 2| / 5) 1

/-- Modelled from the spec: deep-feature-anomaly sub-score,
`min((|mean−0.5| + |std−0.3|)/2, 1.0)`. -/
def deep_score (m s : ℚ) : ℚ := min ((|m - 0.5| + |s - 0.3|) / 2) 1

/-- Modelled from the spec: forgery fusion,
`0.25·compression + 0.20·noise + 0.15·edge + 0.15·frequency +
0.25·deep_feature`. -/
def forgery_score (e n ed fr dp : ℚ) : ℚ :=
  0.25 * e + 0.20 * n + 0.15 * ed + 0.15 * fr + 0.25 * dp

/-- Result of the forgery ensemble: the fused score and whether the
deep-feature analysis was unavailable (degraded mode). -/
structure ForgeryReport where
  score : ℚ
  degraded : Bool
  deriving DecidableEq, Repr

/-- Modelled from the spec: `assess_forgery` of the missing forgery
detector (spec §4.2, §6).  When the external feature extractor is
unavailable (`deep = none`) the report degrades gracefully: the remaining
four weights 0.25/0.20/0.15/0.15 are re-normalized to sum to 1.0 (divided
by their sum 0.75) and the degradation is recorded as a flag; no default
deep-feature score is substituted. -/
def assess_forgery (e n ed fr : ℚ) (deep : Option ℚ) : ForgeryReport :=
  match deep with
  | some dp => { score := forgery_score e n ed fr dp, degraded := false }
  | none =>
      { score := (0.25 * e + 0.20 * n + 0.15 * ed + 0.15 * fr) / 0.75,
        degraded := true }

/-! ## Consistency Engine (modelled from the spec, §4.4) -/

/-- Fuel-indexed Levenshtein edit distance; the fuel bounds the total
remaining length, so `levenshtein` below always runs with enough fuel. -/
def levenshteinFuel : ℕ → List Char → List Char → ℕ
  | 0, xs, ys => xs.length + ys.length
  | _ + 1, [], ys => ys.length
  | _ + 1, x :: xs, [] => (x :: xs).length
  | fuel + 1, x :: xs, y :: ys =>
      if x = y then levenshteinFuel fuel xs ys
      else 1 + min (min (levenshteinFuel fuel xs (y :: ys))
                        (levenshteinFuel fuel (x :: xs) ys))
                   (levenshteinFuel fuel xs ys)

/-- Modelled from the spec: Levenshtein edit distance used by the missing
rule engine for fuzzy name matching (spec §4.4, technical specs
Component 4). -/
def levenshtein (a b : List Char) : ℕ :=
  levenshteinFuel (a.length + b.length) a b

/-- Modelled from the spec: name similarity ratio,
`1 − (edit_distance / max(len(a), len(b)))`. -/
def similarity_ratio (a b : List Char) : ℚ :=
  1 - (levenshtein a b : ℚ) / (max a.length b.length : ℚ)

/-- Modelled from the spec: name mismatch tiers — ratio ≥ 0.90 → 0.0 risk,
0.70 ≤ ratio < 0.90 → 0.1, ratio < 0.70 → 0.4. -/
def name_mismatch (a b : List Char) : ℚ :=
  if 0.90 ≤ similarity_ratio a b then 0
  else if 0.70 ≤ similarity_ratio a b then 0.1
  else 0.4

/-- Modelled from the spec: date-of-birth mismatch tier — identical dates
→ 0.0; otherwise age difference > 5 years → 0.5, else 0.2. -/
def dob_mismatch (identical : Bool) (ageDiff : ℚ) : ℚ :=
  if identical then 0 else if 5 < ageDiff then 0.5 else 0.2

/-- Modelled from the spec: ID-number mismatch tier — exact match → 0.0,
first 8 characters match → 0.2, otherwise 0.5. -/
def id_mismatch (a b : List Char) : ℚ :=
  if a = b then 0 else if a.take 8 = b.take 8 then 0.2 else 0.5

/-- Modelled from the spec: consistency fusion,
`mismatch_score = 0.4·name + 0.35·dob + 0.25·id`. -/
def mismatch_score (n d i : ℚ) : ℚ := 0.4 * n + 0.35 * d + 0.25 * i

/-- Modelled from the spec: extraction confidence of the missing field
extractor, `0.4·[name found] + 0.3·[dob found] + 0.3·[id found]`. -/
def extraction_confidence (nameF dobF idF : Bool) : ℚ :=
  0.4 * (if nameF then 1 else 0) + 0.3 * (if dobF then 1 else 0) +
    0.3 * (if idF then 1 else 0)

/-! ## Field Extractor ID-pattern registry (modelled from the spec, §4.3,
and the `ID_PATTERNS` table of the technical specs).  Each registry pattern
is a word-boundary-delimited sequence of character-class repetitions with
optional single spaces, exactly the shape of the documented regexes. -/

/-- One element of an ID regex: a run of uppercase letters, a run of
digits, or an optional single space. -/
inductive PatTok
  | upper (n : ℕ)
  | digit (n : ℕ)
  | optSpace
  deriving DecidableEq, Repr

/-- Word characters in the regex sense. -/
def isWordChar (c : Char) : Bool :=
  (('A' ≤ c ∧ c ≤ 'Z') ∨ ('a' ≤ c ∧ c ≤ 'z') ∨ ('0' ≤ c ∧ c ≤ '9') ∨ c = '_' : Prop)

/-- Consume exactly `n` characters satisfying `p`, returning the rest. -/
def takeClass (p : Char → Bool) : ℕ → List Char → Option (List Char)
  | 0, s => some s
  | _ + 1, [] => none
  | n + 1, c :: s => if p c then takeClass p n s else none

/-- Match a token sequence against a prefix of `s`; returns every possible
remainder (optional spaces introduce two branches). -/
def matchToks : List PatTok → List Char → List (List Char)
  | [], s => [s]
  | PatTok.upper n :: ts, s =>
      match takeClass (fun c => 'A' ≤ c ∧ c ≤ 'Z') n s with
      | some r => matchToks ts r
      | none => []
  | PatTok.digit n :: ts, s =>
      match takeClass (fun c => '0' ≤ c ∧ c ≤ '9') n s with
      | some r => matchToks ts r
      | none => []
  | PatTok.optSpace :: ts, s =>
      (match s with
       | c :: r => if c = ' ' then matchToks ts r else []
       | [] => []) ++ matchToks ts s

/-- The closing word boundary: the remainder starts with a non-word
character or is empty. -/
def endBoundary : List Char → Bool
  | [] => true
  | c :: _ => !isWordChar c

/-- A full match of the pattern starting exactly here, with the closing
word boundary. -/
def matchesHere (ts : List PatTok) (s : List Char) : Bool :=
  (matchToks ts s).any endBoundary

/-- Scan the text for a match at any position whose opening word boundary
holds (`prev` is the character just before the current suffix). -/
def scanMatch (ts : List PatTok) : Option Char → List Char → Bool
  | prev, s =>
      ((match prev with
        | none => true
        | some c => !isWordChar c) && matchesHere ts s) ||
      match s with
      | [] => false
      | c :: r => scanMatch ts (some c) r

/-- Modelled from the spec: the missing extractor's per-document-type ID
pattern registry, in the order of the technical specs' `ID_PATTERNS`
table: aadhaar `\b\d{4}\s?\d{4}\s?\d{4}\b`, pan
`\b[A-Z]{5}\d{4}[A-Z]\b`, passport `\b[A-Z]\d{7}\b`, driving_license
`\b[A-Z]{2}\d{2}\s?\d{11}\b`, voter_id `\b[A-Z]{3}\d{7}\b`. -/
def ID_PATTERNS : List (String × List PatTok) :=
  [("aadhaar",
      [PatTok.digit 4, PatTok.optSpace, PatTok.digit 4, PatTok.optSpace,
       PatTok.digit 4]),
   ("pan", [PatTok.upper 5, PatTok.digit 4, PatTok.upper 1]),
   ("passport", [PatTok.upper 1, PatTok.digit 7]),
   ("driving_license",
      [PatTok.upper 2, PatTok.digit 2, PatTok.optSpace, PatTok.digit 11]),
   ("voter_id", [PatTok.upper 3, PatTok.digit 7])]

/-- Modelled from the spec: the missing field extractor tries the registry
of per-document-type patterns against the recognized text and tags the
matched type (spec §4.3; the first matching registry entry wins). -/
def classify_id (text : List Char) : Option String :=
  (ID_PATTERNS.find? (fun p => scanMatch p.2 none text)).map (fun p => p.1)

/-! ## Behavior tracker (embedded from
`src/behavior_analysis/behavior_tracker.js`, keydown/keyup listeners) -/

/-- A keyboard action delivered to the tracker's listeners: the key code
and the value of `Date.now()` at delivery. -/
inductive KeyAction
  | down (code : String) (t : ℕ)
  | up (code : String) (t : ℕ)
  deriving DecidableEq, Repr

/-- An object pushed onto `eventBuffer` by the keyup listener:
`{ type: 'k', d: dwell, t: now }`. -/
structure TrackedEvent where
  type : String
  d : ℤ
  t : ℕ
  deriving DecidableEq, Repr

/-- The tracker's mutable state: the `keyTimes` map (key code → keydown
timestamp), the event buffer, and the payloads flushed so far. -/
structure TrackerState where
  keyTimes : List (String × ℕ)
  eventBuffer : List TrackedEvent
  flushed : List (List TrackedEvent)
  deriving DecidableEq, Repr

/-- Lookup in the `keyTimes` object. -/
def lookupKey : List (String × ℕ) → String → Option ℕ
  | [], _ => none
  | (k, v) :: rest, code => if k = code then some v else lookupKey rest code

/-- Deleting a key from the `keyTimes` object (`delete keyTimes[e.code]`). -/
def eraseKey (code : String) : List (String × ℕ) → List (String × ℕ)
  | [] => []
  | (k, v) :: rest => if k = code then rest else (k, v) :: eraseKey code rest

/-- `MAX_BUFFER_SIZE` from the tracker. -/
def MAX_BUFFER_SIZE : ℕ := 50

/-- The keyup listener's trailing check:
`if (eventBuffer.length >= MAX_BUFFER_SIZE) flushData()`. -/
def flushIfFull (s : TrackerState) : TrackerState :=
  if MAX_BUFFER_SIZE ≤ s.eventBuffer.length then
    { s with eventBuffer := [], flushed := s.flushed ++ [s.eventBuffer] }
  else s

/-- One listener invocation.  keydown records the first down-time for a
code; keyup, when a matching down-time exists, pushes
`{ type: 'k', d: now − downTime, t: now }` and deletes the entry, then
checks the buffer size. -/
def stepKey (s : TrackerState) : KeyAction → TrackerState
  | KeyAction.down code now =>
      match lookupKey s.keyTimes code with
      | some _ => s
      | none => { s with keyTimes := (code, now) :: s.keyTimes }
  | KeyAction.up code now =>
      match lookupKey s.keyTimes code with
      | some downTime =>
          flushIfFull
            { s with
              eventBuffer :=
                s.eventBuffer ++ [⟨"k", (now : ℤ) - (downTime : ℤ), now⟩],
              keyTimes := eraseKey code s.keyTimes }
      | none => flushIfFull s

/-- Run the tracker's keyboard listeners over a whole action trace. -/
def runTracker (trace : List KeyAction) : TrackerState :=
  trace.foldl stepKey { keyTimes := [], eventBuffer := [], flushed := [] }

/-- Rename the key codes of an action, leaving the timings unchanged. -/
def renameAction (f : String → String) : KeyAction → KeyAction
  | KeyAction.down code t => KeyAction.down (f code) t
  | KeyAction.up code t => KeyAction.up (f code) t

/-! ## dataURLtoBlob (embedded from `frontend/src/api/kycApi.js`) -/

/-- The value produced by the `Blob` constructor call: the MIME type and
the decoded bytes. -/
structure Blob where
  type : String
  bytes : List ℕ
  deriving DecidableEq, Repr

/-- The string splitting of `dataURL.split(',')`. -/
def splitOnComma : List Char → List (List Char)
  | [] => [[]]
  | c :: rest =>
      if c = ',' then [] :: splitOnComma rest
      else
        match splitOnComma rest with
        | [] => [[c]]
        | p :: ps => (c :: p) :: ps

/-- The lazy tail of the regex `/:(.*?);/`: capture up to the first `;`. -/
def takeUntilSemi : List Char → Option (List Char)
  | [] => none
  | c :: rest =>
      if c = ';' then some []
      else (takeUntilSemi rest).map (fun l => c :: l)

/-- The capture group of `arr[0].match(/:(.*?);/)`: the text between the
first `:` that is followed by a `;` and that first following `;`. -/
def mimeCapture : List Char → Option (List Char)
  | [] => none
  | c :: rest =>
      if c = ':' then
        match takeUntilSemi rest with
        | some cap => some cap
        | none => mimeCapture rest
      else mimeCapture rest

/-- Base64 value of a single character. -/
def b64Val (c : Char) : Option ℕ :=
  if 'A' ≤ c ∧ c ≤ 'Z' then some (c.toNat - 65)
  else if 'a' ≤ c ∧ c ≤ 'z' then some (c.toNat - 97 + 26)
  else if '0' ≤ c ∧ c ≤ '9' then some (c.toNat - 48 + 52)
  else if c = '+' then some 62
  else if c = '/' then some 63
  else none

/-- Decode base64 in 4-character chunks; a trailing chunk of 2 or 3
characters yields 1 or 2 bytes, a trailing chunk of 1 character is a
decode failure (as in `atob`). -/
def b64Chunks : List Char → Option (List ℕ)
  | [] => some []
  | [_] => none
  | [c1, c2] =>
      match b64Val c1, b64Val c2 with
      | some v1, some v2 => some [v1 * 4 + v2 / 16]
      | _, _ => none
  | [c1, c2, c3] =>
      match b64Val c1, b64Val c2, b64Val c3 with
      | some v1, some v2, some v3 =>
          some [v1 * 4 + v2 / 16, v2 % 16 * 16 + v3 / 4]
      | _, _, _ => none
  | c1 :: c2 :: c3 :: c4 :: rest =>
      match b64Val c1, b64Val c2, b64Val c3, b64Val c4, b64Chunks rest with
      | some v1, some v2, some v3, some v4, some bs =>
          some ([v1 * 4 + v2 / 16, v2 % 16 * 16 + v3 / 4,
                 v3 % 4 * 64 + v4] ++ bs)
      | _, _, _, _, _ => none

/-- ASCII whitespace, which `atob`'s forgiving-base64 decoder removes. -/
def isB64Whitespace (c : Char) : Bool :=
  c = ' ' ∨ c = '\t' ∨ c = '\n' ∨ c = '\x0d' ∨ c = '\x0c'

/-- Remove up to two trailing `=` padding characters. -/
def dropPadding (l : List Char) : List Char :=
  (match l.reverse with
   | '=' :: '=' :: rest => rest
   | '=' :: rest => rest
   | r => r).reverse

/-- The `atob` decoder (forgiving base64): strip ASCII whitespace, strip
up to two `=` padding characters when the length is a multiple of 4, then
decode; any other `=` or invalid character fails. -/
def atob (s : List Char) : Option (List ℕ) :=
  let cleaned := s.filter (fun c => !isB64Whitespace c)
  let t := if cleaned.length % 4 = 0 then dropPadding cleaned else cleaned
  b64Chunks t

/-- Embedded from `kycApi.js` lines 22–50.  A `none` input models any
non-string (or null/undefined) argument.  Mirrors the source exactly,
including the MIME fallback `mimeMatch ? mimeMatch[1] : 'image/jpeg'`,
which uses the capture group even when the captured text is empty. -/
def dataURLtoBlob (input : Option String) : Except String Blob :=
  match input with
  | none => Except.error "Invalid data URL: must be a non-empty string"
  | some s =>
      if s.data = [] then
        Except.error "Invalid data URL: must be a non-empty string"
      else
        match splitOnComma s.data with
        | a0 :: a1 :: _ =>
            let mime :=
              match mimeCapture a0 with
              | some cap => String.mk cap
              | none => "image/jpeg"
            match atob a1 with
            | none => Except.error "Failed to decode image data"
            | some bytes => Except.ok { type := mime, bytes := bytes }
        | _ => Except.error "Invalid data URL format: missing data part"

/-! ## Helper lemmas -/

/-- The base thresholds only ever produce the three dispositions below
`REQUEST_NEW_IMAGE` in severity. -/
lemma severity_base_le_two (r : ℚ) : severity (base_disposition r) ≤ 2 := by
  unfold base_disposition
  split_ifs <;> simp [severity]

/-! ## Claims about the Decision Engine -/

/-- Claim C1: for quality, forgery and mismatch scores in the unit
interval the Decision Engine computes
`risk = 0.25·(1 − quality) + 0.40·forgery + 0.35·mismatch`; with the
mismatch score undefined it uses the two remaining weights re-normalized
proportionally (0.25/0.65 and 0.40/0.65), which again sum to 1. -/
theorem C1_risk_formula (q f m : ℚ) (hq : mem01 q) (hf : mem01 f)
    (hm : mem01 m) :
    doc_risk_score q f (some m) = 0.25 * (1 - q) + 0.40 * f + 0.35 * m ∧
    doc_risk_score q f none = 0.25 / 0.65 * (1 - q) + 0.40 / 0.65 * f ∧
    (0.25 / 0.65 + 0.40 / 0.65 : ℚ) = 1 := by
  refine ⟨by simp [doc_risk_score, quality_risk], ?_, by norm_num⟩
  show (0.25 * (1 - q) + 0.40 * f) / 0.65 = _
  ring

/-- Witness for C1 at quality 0.5, forgery 0.5, mismatch 0.5. -/
theorem C1_risk_formula_witness :
    doc_risk_score 0.5 0.5 (some 0.5) =
      0.25 * (1 - 0.5) + 0.40 * 0.5 + 0.35 * 0.5 ∧
    doc_risk_score 0.5 0.5 none = 0.25 / 0.65 * (1 - 0.5) + 0.40 / 0.65 * 0.5 ∧
    (0.25 / 0.65 + 0.40 / 0.65 : ℚ) = 1 :=
  C1_risk_formula 0.5 0.5 0.5 (by norm_num [mem01]) (by norm_num [mem01])
    (by norm_num [mem01])

/-- Claim C2: the base disposition is REJECT above 0.75, MANUAL_REVIEW on
(0.35, 0.75], and APPROVE at or below 0.35. -/
theorem C2_base_thresholds (r : ℚ) :
    (0.75 < r → base_disposition r = Disposition.REJECT) ∧
    (0.35 < r → r ≤ 0.75 → base_disposition r = Disposition.MANUAL_REVIEW) ∧
    (r ≤ 0.35 → base_disposition r = Disposition.APPROVE) := by
  refine ⟨fun h => ?_, fun h1 h2 => ?_, fun h => ?_⟩
  · rw [base_disposition, if_pos h]
  · rw [base_disposition, if_neg h2.not_lt, if_pos h1]
  · rw [base_disposition, if_neg, if_neg h.not_lt]
    exact (h.trans (by norm_num)).not_lt

/-- Witness for C2 at the risk scores 0.8, 0.5 and 0.2. -/
theorem C2_base_thresholds_witness :
    base_disposition 0.8 = Disposition.REJECT ∧
    base_disposition 0.5 = Disposition.MANUAL_REVIEW ∧
    base_disposition 0.2 = Disposition.APPROVE :=
  ⟨(C2_base_thresholds 0.8).1 (by norm_num),
   (C2_base_thresholds 0.5).2.1 (by norm_num) (by norm_num),
   (C2_base_thresholds 0.2).2.2 (by norm_num)⟩

/-- Claim C3: overrides are evaluated after the base threshold in the
fixed order forgery → quality → mismatch and the first applicable one
wins: forgery > 0.80 forces REJECT; otherwise quality < 0.30 forces
REQUEST_NEW_IMAGE independent of the other scores; otherwise
mismatch > 0.60 forces at least MANUAL_REVIEW.  Every override only
escalates the severity of the base disposition, and at quality 0.1 with
forgery 0.9 the first applicable override (forgery) makes the result
REJECT. -/
theorem C3_override_precedence (q f : ℚ) (m : Option ℚ) :
    (0.80 < f → decide_disposition q f m = Disposition.REJECT) ∧
    (f ≤ 0.80 → q < 0.30 →
      decide_disposition q f m = Disposition.REQUEST_NEW_IMAGE) ∧
    (f ≤ 0.80 → 0.30 ≤ q → ∀ ms, m = some ms → 0.60 < ms →
      severity Disposition.MANUAL_REVIEW ≤
        severity (decide_disposition q f m)) ∧
    severity (base_disposition (doc_risk_score q f m)) ≤
      severity (decide_disposition q f m) ∧
    decide_disposition 0.1 0.9 m = Disposition.REJECT := by
  refine ⟨fun h => ?_, fun h1 h2 => ?_, fun h1 h2 ms hm hms => ?_, ?_, ?_⟩
  · simp [decide_disposition, h]
  · simp [decide_disposition, h1.not_lt, h2]
  · subst hm
    simp only [decide_disposition, if_neg h1.not_lt, if_neg h2.not_lt,
      if_pos hms]
    cases base_disposition (doc_risk_score q f (some ms)) <;>
      simp [severity]
  · by_cases hf : 0.80 < f
    · simpa [decide_disposition, hf, severity] using severity_base_le_two _
    · by_cases hq : q < 0.30
      · refine le_trans (severity_base_le_two _) ?_
        simp [decide_disposition, hf, hq, severity]
      · cases m with
        | none => simp [decide_disposition, hf, hq]
        | some ms =>
            by_cases hms : 0.60 < ms
            · simp only [decide_disposition, if_neg hf, if_neg hq,
                if_pos hms]
              cases hb : base_disposition (doc_risk_score q f (some ms)) <;>
                simp [severity]
            · simp [decide_disposition, hf, hq, hms]
  · have h9 : (0.80 : ℚ) < 0.9 := by norm_num
    simp [decide_disposition, h9]

/-- Witness for C3: each override conjunct at a concrete input. -/
theorem C3_override_precedence_witness :
    decide_disposition 0.5 0.9 (some 0.2) = Disposition.REJECT ∧
    decide_disposition 0.1 0.5 (some 0.2) = Disposition.REQUEST_NEW_IMAGE ∧
    severity Disposition.MANUAL_REVIEW ≤
      severity (decide_disposition 0.5 0.5 (some 0.7)) ∧
    severity (base_disposition (doc_risk_score 0.5 0.5 (some 0.5))) ≤
      severity (decide_disposition 0.5 0.5 (some 0.5)) ∧
    decide_disposition 0.1 0.9 (some 0.0) = Disposition.REJECT :=
  ⟨(C3_override_precedence 0.5 0.9 (some 0.2)).1 (by norm_num),
   (C3_override_precedence 0.1 0.5 (some 0.2)).2.1 (by norm_num)
     (by norm_num),
   (C3_override_precedence 0.5 0.5 (some 0.7)).2.2.1 (by norm_num)
     (by norm_num) 0.7 rfl (by norm_num),
   (C3_override_precedence 0.5 0.5 (some 0.5)).2.2.2.1,
   (C3_override_precedence 0.1 0.9 (some 0.0)).2.2.2.2⟩

/-- Claim C5, counterexample: at quality 0.9, forgery 0.2, mismatch 0.1
the risk score is not 0.13 — the cited arithmetic
`0.25·0.1 + 0.40·0.2 + 0.35·0.1` evaluates to 0.14. -/
theorem C5_risk_not_013 :
    ¬ doc_risk_score 0.9 0.2 (some 0.1) = 0.13 := by
  norm_num [doc_risk_score, quality_risk]

/-- Claim C5 as amended: at quality 0.9, forgery 0.2, mismatch 0.1 the
risk score is `0.25·0.1 + 0.40·0.2 + 0.35·0.1 = 0.14` and the disposition
is APPROVE; at quality 0.9, forgery 0.85, mismatch 0.1 the forgery
override forces REJECT. -/
theorem C5_example_decisions :
    doc_risk_score 0.9 0.2 (some 0.1) = 0.25 * 0.1 + 0.40 * 0.2 + 0.35 * 0.1 ∧
    doc_risk_score 0.9 0.2 (some 0.1) = 0.14 ∧
    decide_disposition 0.9 0.2 (some 0.1) = Disposition.APPROVE ∧
    decide_disposition 0.9 0.85 (some 0.1) = Disposition.REJECT := by
  refine ⟨?_, ?_, ?_, ?_⟩ <;>
    norm_num [decide_disposition, base_disposition, doc_risk_score,
      quality_risk]

/-! ## Claims about the Forgery Ensemble and the Field Extractor -/

/-- Claim C7: with the feature extractor unavailable `assess_forgery`
still returns a report whose score combines the remaining four analyses
with their weights re-normalized to sum to 1, records the degradation
flag, and sets no flag when the deep-feature score is present. -/
theorem C7_graceful_degradation (e n ed fr : ℚ) :
    (assess_forgery e n ed fr none).degraded = true ∧
    (assess_forgery e n ed fr none).score =
      0.25 / 0.75 * e + 0.20 / 0.75 * n + 0.15 / 0.75 * ed +
        0.15 / 0.75 * fr ∧
    (0.25 / 0.75 + 0.20 / 0.75 + 0.15 / 0.75 + 0.15 / 0.75 : ℚ) = 1 ∧
    ∀ dp, (assess_forgery e n ed fr (some dp)).degraded = false := by
  refine ⟨rfl, ?_, by norm_num, fun dp => rfl⟩
  show (0.25 * e + 0.20 * n + 0.15 * ed + 0.15 * fr) / 0.75 = _
  ring

/-- Claim C8: the pattern registry classifies the text
"AB12 98765432101" as a driving_license ID and "ABCDE1234F" as a PAN
ID. -/
theorem C8_pattern_registry :
    classify_id "AB12 98765432101".data = some "driving_license" ∧
    classify_id "ABCDE1234F".data = some "pan" := by
  constructor <;> decide

/-! ## Claim C4: score bounds and convexity -/

/-- Claim C4: every sub-score lies in the unit interval (raw values that
could fall outside it are clamped before fusion), every composite score is
a convex combination of unit-interval sub-scores whose weights sum to 1,
and so every composite score again lies in the unit interval. -/
theorem C4_score_bounds :
    (∀ v, 0 ≤ v → mem01 (blur_score v)) ∧
    (∀ w h, 0 ≤ w → 0 ≤ h → mem01 (resolution_score w h)) ∧
    (∀ mean, mem01 (brightness_score mean)) ∧
    (∀ raw, mem01 (border_score raw)) ∧
    (∀ raw, mem01 (contrast_score raw)) ∧
    (∀ b r br bo c, mem01 b → mem01 r → mem01 br → mem01 bo → mem01 c →
      mem01 (quality_score b r br bo c)) ∧
    (0.30 + 0.25 + 0.15 + 0.15 + 0.15 : ℚ) = 1 ∧
    (∀ std mx, 0 ≤ std → 0 ≤ mx → mem01 (ela_score std mx)) ∧
    (∀ v, 0 ≤ v → mem01 (noise_score v)) ∧
    (∀ d, mem01 (edge_score d)) ∧
    (∀ r, mem01 (freq_score r)) ∧
    (∀ m s, mem01 (deep_score m s)) ∧
    (∀ e n ed fr dp, mem01 e → mem01 n → mem01 ed → mem01 fr → mem01 dp →
      mem01 (forgery_score e n ed fr dp)) ∧
    (0.25 + 0.20 + 0.15 + 0.15 + 0.25 : ℚ) = 1 ∧
    (∀ a b, mem01 (name_mismatch a b)) ∧
    (∀ idt ad, mem01 (dob_mismatch idt ad)) ∧
    (∀ a b, mem01 (id_mismatch a b)) ∧
    (∀ n d i, mem01 n → mem01 d → mem01 i → mem01 (mismatch_score n d i)) ∧
    (0.4 + 0.35 + 0.25 : ℚ) = 1 ∧
    (∀ nf df idf, mem01 (extraction_confidence nf df idf)) ∧
    (0.4 + 0.3 + 0.3 : ℚ) = 1 ∧
    (∀ q f m, mem01 q → mem01 f → mem01 m →
      mem01 (doc_risk_score q f (some m))) ∧
    (∀ q f, mem01 q → mem01 f → mem01 (doc_risk_score q f none)) ∧
    (0.25 + 0.40 + 0.35 : ℚ) = 1 := by
  have hclamp : ∀ x : ℚ, mem01 (clamp01 x) := fun x =>
    ⟨le_min (le_max_right x 0) zero_le_one, min_le_right _ 1⟩
  refine ⟨?_, ?_, ?_, hclamp, hclamp, ?_, by norm_num, ?_, ?_, ?_, ?_, ?_,
    ?_, by norm_num, ?_, ?_, ?_, ?_, by norm_num, ?_, by norm_num, ?_, ?_,
    by norm_num⟩
  · intro v hv
    exact ⟨le_min (div_nonneg hv (by norm_num)) zero_le_one,
      min_le_right _ 1⟩
  · intro w h hw hh
    refine ⟨le_min (div_nonneg ?_ (by norm_num)) zero_le_one,
      min_le_right _ 1⟩
    exact add_nonneg (div_nonneg hw (by norm_num))
      (div_nonneg hh (by norm_num))
  · intro mean
    refine ⟨le_max_right _ 0, max_le ?_ zero_le_one⟩
    have := div_nonneg (abs_nonneg (mean - 130)) (by norm_num : (0:ℚ) ≤ 130)
    linarith
  · intro b r br bo c hb hr hbr hbo hc
    obtain ⟨hb0, hb1⟩ := hb
    obtain ⟨hr0, hr1⟩ := hr
    obtain ⟨hbr0, hbr1⟩ := hbr
    obtain ⟨hbo0, hbo1⟩ := hbo
    obtain ⟨hc0, hc1⟩ := hc
    unfold quality_score
    constructor <;> [nlinarith; nlinarith]
  · intro std mx hs hm
    refine ⟨le_min (add_nonneg (div_nonneg hs (by norm_num)) ?_)
      zero_le_one, min_le_right _ 1⟩
    exact mul_nonneg (div_nonneg hm (by norm_num)) (by norm_num)
  · intro v hv
    refine ⟨le_max_right _ 0, max_le ?_ zero_le_one⟩
    have := div_nonneg hv (by norm_num : (0:ℚ) ≤ 5)
    linarith
  · intro d
    exact ⟨le_min (mul_nonneg (abs_nonneg _) (by norm_num)) zero_le_one,
      min_le_right _ 1⟩
  · intro r
    exact ⟨le_min (div_nonneg (abs_nonneg _) (by norm_num)) zero_le_one,
      min_le_right _ 1⟩
  · intro m s
    refine ⟨le_min (div_nonneg ?_ (by norm_num)) zero_le_one,
      min_le_right _ 1⟩
    exact add_nonneg (abs_nonneg _) (abs_nonneg _)
  · intro e n ed fr dp he hn hed hfr hdp
    obtain ⟨he0, he1⟩ := he
    obtain ⟨hn0, hn1⟩ := hn
    obtain ⟨hed0, hed1⟩ := hed
    obtain ⟨hfr0, hfr1⟩ := hfr
    obtain ⟨hdp0, hdp1⟩ := hdp
    unfold forgery_score
    constructor <;> [nlinarith; nlinarith]
  · intro a b
    unfold name_mismatch mem01
    split_ifs <;> norm_num
  · intro idt ad
    unfold dob_mismatch mem01
    split_ifs <;> norm_num
  · intro a b
    unfold id_mismatch mem01
    split_ifs <;> norm_num
  · intro n d i hn hd hi
    obtain ⟨hn0, hn1⟩ := hn
    obtain ⟨hd0, hd1⟩ := hd
    obtain ⟨hi0, hi1⟩ := hi
    unfold mismatch_score
    constructor <;> [nlinarith; nlinarith]
  · intro nf df idf
    cases nf <;> cases df <;> cases idf <;>
      norm_num [extraction_confidence, mem01]
  · intro q f m hq hf hm
    obtain ⟨hq0, hq1⟩ := hq
    obtain ⟨hf0, hf1⟩ := hf
    obtain ⟨hm0, hm1⟩ := hm
    unfold doc_risk_score quality_risk
    constructor <;> [nlinarith; nlinarith]
  · intro q f hq hf
    obtain ⟨hq0, hq1⟩ := hq
    obtain ⟨hf0, hf1⟩ := hf
    unfold doc_risk_score quality_risk
    constructor
    · refine div_nonneg ?_ (by norm_num)
      nlinarith
    · rw [div_le_one (by norm_num)]
      nlinarith

/-- Witness for C4: each bounded-score conjunct at a concrete input. -/
theorem C4_score_bounds_witness :
    mem01 (blur_score 30) ∧ mem01 (resolution_score 640 480) ∧
    mem01 (brightness_score 200) ∧ mem01 (border_score 2) ∧
    mem01 (contrast_score (-1)) ∧
    mem01 (quality_score 1 1 1 1 1) ∧
    mem01 (ela_score 10 200) ∧ mem01 (noise_score 3) ∧
    mem01 (edge_score 0.5) ∧ mem01 (freq_score 4) ∧
    mem01 (deep_score 0.2 0.9) ∧
    mem01 (forgery_score 1 1 1 1 1) ∧
    mem01 (name_mismatch "JOHN DOE".data "JOHN D".data) ∧
    mem01 (dob_mismatch false 7) ∧
    mem01 (id_mismatch "ABCDE1234F".data "ABCDE1234G".data) ∧
    mem01 (mismatch_score 0.4 0.2 0.5) ∧
    mem01 (extraction_confidence true false true) ∧
    mem01 (doc_risk_score 0.9 0.2 (some 0.1)) ∧
    mem01 (doc_risk_score 0.9 0.2 none) :=
  ⟨C4_score_bounds.1 30 (by norm_num),
   C4_score_bounds.2.1 640 480 (by norm_num) (by norm_num),
   C4_score_bounds.2.2.1 200,
   C4_score_bounds.2.2.2.1 2,
   C4_score_bounds.2.2.2.2.1 (-1),
   C4_score_bounds.2.2.2.2.2.1 1 1 1 1 1 (by norm_num [mem01])
     (by norm_num [mem01]) (by norm_num [mem01]) (by norm_num [mem01])
     (by norm_num [mem01]),
   C4_score_bounds.2.2.2.2.2.2.2.1 10 200 (by norm_num) (by norm_num),
   C4_score_bounds.2.2.2.2.2.2.2.2.1 3 (by norm_num),
   C4_score_bounds.2.2.2.2.2.2.2.2.2.1 0.5,
   C4_score_bounds.2.2.2.2.2.2.2.2.2.2.1 4,
   C4_score_bounds.2.2.2.2.2.2.2.2.2.2.2.1 0.2 0.9,
   C4_score_bounds.2.2.2.2.2.2.2.2.2.2.2.2.1 1 1 1 1 1 (by norm_num [mem01])
     (by norm_num [mem01]) (by norm_num [mem01]) (by norm_num [mem01])
     (by norm_num [mem01]),
   C4_score_bounds.2.2.2.2.2.2.2.2.2.2.2.2.2.2.1 "JOHN DOE".data
     "JOHN D".data,
   C4_score_bounds.2.2.2.2.2.2.2.2.2.2.2.2.2.2.2.1 false 7,
   C4_score_bounds.2.2.2.2.2.2.2.2.2.2.2.2.2.2.2.2.1 "ABCDE1234F".data
     "ABCDE1234G".data,
   C4_score_bounds.2.2.2.2.2.2.2.2.2.2.2.2.2.2.2.2.2.1 0.4 0.2 0.5
     (by norm_num [mem01]) (by norm_num [mem01]) (by norm_num [mem01]),
   C4_score_bounds.2.2.2.2.2.2.2.2.2.2.2.2.2.2.2.2.2.2.2.1 true false true,
   C4_score_bounds.2.2.2.2.2.2.2.2.2.2.2.2.2.2.2.2.2.2.2.2.2.1 0.9 0.2 0.1
     (by norm_num [mem01]) (by norm_num [mem01]) (by norm_num [mem01]),
   C4_score_bounds.2.2.2.2.2.2.2.2.2.2.2.2.2.2.2.2.2.2.2.2.2.2.1 0.9 0.2
     (by norm_num [mem01]) (by norm_num [mem01])⟩

/-! ## Claim C6: fuzzy name matching -/

/-- Claim C6: for non-empty names the mismatch tier is 0.0 at similarity
ratio ≥ 0.90, 0.1 on [0.70, 0.90), and 0.4 below 0.70; extracted
"JOHN DOE" against claimant "JOHN D" has ratio 0.75 and tier 0.1. -/
theorem C6_name_matching (a b : List Char) (ha : a ≠ []) (hb : b ≠ []) :
    (0.90 ≤ similarity_ratio a b → name_mismatch a b = 0) ∧
    (0.70 ≤ similarity_ratio a b → similarity_ratio a b < 0.90 →
      name_mismatch a b = 0.1) ∧
    (similarity_ratio a b < 0.70 → name_mismatch a b = 0.4) ∧
    similarity_ratio "JOHN DOE".data "JOHN D".data = 0.75 ∧
    name_mismatch "JOHN DOE".data "JOHN D".data = 0.1 := by
  have hlev : levenshtein "JOHN DOE".data "JOHN D".data = 2 := by decide
  have hlen8 : ("JOHN DOE".data.length : ℕ) = 8 := by decide
  have hlen6 : ("JOHN D".data.length : ℕ) = 6 := by decide
  have hratio : similarity_ratio "JOHN DOE".data "JOHN D".data = 0.75 := by
    rw [similarity_ratio, hlev, hlen8, hlen6]
    norm_num
  refine ⟨fun h => ?_, fun h1 h2 => ?_, fun h => ?_, hratio, ?_⟩
  · rw [name_mismatch, if_pos h]
  · rw [name_mismatch, if_neg h2.not_le, if_pos h1]
  · rw [name_mismatch, if_neg, if_neg h.not_le]
    exact (h.trans (by norm_num)).not_le
  · rw [name_mismatch, hratio]
    norm_num

/-- Witness for C6 at the spec's own example pair. -/
theorem C6_name_matching_witness :
    similarity_ratio "JOHN DOE".data "JOHN D".data = 0.75 ∧
    name_mismatch "JOHN DOE".data "JOHN D".data = 0.1 :=
  ⟨(C6_name_matching "JOHN DOE".data "JOHN D".data (by decide)
      (by decide)).2.2.2.1,
   (C6_name_matching "JOHN DOE".data "JOHN D".data (by decide)
      (by decide)).2.2.2.2⟩

/-! ## Claim C9: keystroke events carry no key identity -/

/-- A successful `lookupKey` returns an entry of the map. -/
lemma lookupKey_mem : ∀ {l : List (String × ℕ)} {code : String} {v : ℕ},
    lookupKey l code = some v → (code, v) ∈ l := by
  intro l
  induction l with
  | nil => intro code v h; simp [lookupKey] at h
  | cons kv rest ih =>
      intro code v h
      obtain ⟨k, t⟩ := kv
      simp only [lookupKey] at h
      split_ifs at h with hk
      · subst hk
        injection h with h
        subst h
        exact List.mem_cons_self _ _
      · exact List.mem_cons_of_mem _ (ih h)

/-- `eraseKey` only removes entries. -/
lemma mem_eraseKey : ∀ {code : String} {l : List (String × ℕ)}
    {x : String × ℕ}, x ∈ eraseKey code l → x ∈ l := by
  intro code l
  induction l with
  | nil => intro x h; simp [eraseKey] at h
  | cons kv rest ih =>
      intro x h
      obtain ⟨k, t⟩ := kv
      simp only [eraseKey] at h
      split_ifs at h with hk
      · exact List.mem_cons_of_mem _ h
      · rcases List.mem_cons.1 h with h1 | h2
        · exact h1 ▸ List.mem_cons_self _ _
        · exact List.mem_cons_of_mem _ (ih h2)

/-- Flushing does not touch the `keyTimes` map. -/
lemma flushIfFull_keyTimes (s : TrackerState) :
    (flushIfFull s).keyTimes = s.keyTimes := by
  unfold flushIfFull
  split_ifs <;> rfl

/-- Flushing preserves any property of the buffered and flushed events. -/
lemma flushIfFull_events {P : TrackedEvent → Prop} {s : TrackerState}
    (hb : ∀ e ∈ s.eventBuffer, P e)
    (hf : ∀ p ∈ s.flushed, ∀ e ∈ p, P e) :
    (∀ e ∈ (flushIfFull s).eventBuffer, P e) ∧
    (∀ p ∈ (flushIfFull s).flushed, ∀ e ∈ p, P e) := by
  unfold flushIfFull
  split_ifs with h
  · refine ⟨fun e he => absurd he (List.not_mem_nil e), fun p hp e he => ?_⟩
    rcases List.mem_append.1 hp with h1 | h2
    · exact hf p h1 e he
    · rw [List.mem_singleton.1 h2] at he
      exact hb e he
  · exact ⟨hb, hf⟩

/-- Invariant induction over a trace: if entries of `keyTimes` always
satisfy `D`, down events of the trace put their code/time into `D`, and
every dwell event built from a `D` entry and an up event of the trace
satisfies `P`, then every event the tracker buffers or flushes satisfies
`P`. -/
lemma trackerFold_events (P : TrackedEvent → Prop) (D : String → ℕ → Prop) :
    ∀ (l : List KeyAction) (s : TrackerState),
      (∀ c t', (c, t') ∈ s.keyTimes → D c t') →
      (∀ e ∈ s.eventBuffer, P e) →
      (∀ p ∈ s.flushed, ∀ e ∈ p, P e) →
      (∀ c t', KeyAction.down c t' ∈ l → D c t') →
      (∀ c td tu, D c td → KeyAction.up c tu ∈ l →
        P ⟨"k", (tu : ℤ) - (td : ℤ), tu⟩) →
      (∀ e ∈ (l.foldl stepKey s).eventBuffer, P e) ∧
      (∀ p ∈ (l.foldl stepKey s).flushed, ∀ e ∈ p, P e) := by
  intro l
  induction l with
  | nil => intro s _ hb hf _ _; exact ⟨hb, hf⟩
  | cons a rest ih =>
      intro s hk hb hf hdowns hups
      rw [List.foldl_cons]
      have hdowns' : ∀ c t', KeyAction.down c t' ∈ rest → D c t' :=
        fun c t' h => hdowns c t' (List.mem_cons_of_mem _ h)
      have hups' : ∀ c td tu, D c td → KeyAction.up c tu ∈ rest →
          P ⟨"k", (tu : ℤ) - (td : ℤ), tu⟩ :=
        fun c td tu hD h => hups c td tu hD (List.mem_cons_of_mem _ h)
      cases a with
      | down code now =>
          cases hl : lookupKey s.keyTimes code with
          | some t0 =>
              simp only [stepKey, hl]
              exact ih s hk hb hf hdowns' hups'
          | none =>
              simp only [stepKey, hl]
              refine ih _ ?_ hb hf hdowns' hups'
              intro c t' hmem
              rcases List.mem_cons.1 hmem with heq | hold
              · injection heq with h1 h2
                subst h1
                subst h2
                exact hdowns c t' (List.mem_cons_self _ _)
              · exact hk c t' hold
      | up code now =>
          cases hl : lookupKey s.keyTimes code with
          | none =>
              simp only [stepKey, hl]
              obtain ⟨hb2, hf2⟩ := flushIfFull_events hb hf
              refine ih _ ?_ hb2 hf2 hdowns' hups'
              intro c t' hmem
              rw [flushIfFull_keyTimes] at hmem
              exact hk c t' hmem
          | some dt =>
              simp only [stepKey, hl]
              have hb1 : ∀ e ∈ s.eventBuffer ++
                  [(⟨"k", (now : ℤ) - (dt : ℤ), now⟩ : TrackedEvent)], P e := by
                intro e he
                rcases List.mem_append.1 he with h1 | h2
                · exact hb e h1
                · rw [List.mem_singleton.1 h2]
                  exact hups code dt now (hk code dt (lookupKey_mem hl))
                    (List.mem_cons_self _ _)
              obtain ⟨hb2, hf2⟩ := @flushIfFull_events P
                { s with
                  eventBuffer := s.eventBuffer ++
                    [⟨"k", (now : ℤ) - (dt : ℤ), now⟩],
                  keyTimes := eraseKey code s.keyTimes } hb1 hf
              refine ih _ ?_ hb2 hf2 hdowns' hups'
              intro c t' hmem
              rw [flushIfFull_keyTimes] at hmem
              exact hk c t' (mem_eraseKey hmem)

/-- Under an injective renaming of key codes, `lookupKey` is unchanged. -/
lemma lookupKey_rename (π : String → String) (hπ : Function.Injective π) :
    ∀ (l : List (String × ℕ)) (code : String),
      lookupKey (l.map (fun kv => (π kv.1, kv.2))) (π code) =
        lookupKey l code := by
  intro l code
  induction l with
  | nil => rfl
  | cons kv rest ih =>
      obtain ⟨k, t⟩ := kv
      simp only [List.map_cons, lookupKey]
      by_cases hk : k = code
      · simp [hk]
      · have h2 : ¬ π k = π code := fun he => hk (hπ he)
        rw [if_neg hk, if_neg h2]
        exact ih

/-- Under an injective renaming of key codes, `eraseKey` commutes with the
renaming. -/
lemma eraseKey_rename (π : String → String) (hπ : Function.Injective π) :
    ∀ (l : List (String × ℕ)) (code : String),
      eraseKey (π code) (l.map (fun kv => (π kv.1, kv.2))) =
        (eraseKey code l).map (fun kv => (π kv.1, kv.2)) := by
  intro l code
  induction l with
  | nil => rfl
  | cons kv rest ih =>
      obtain ⟨k, t⟩ := kv
      simp only [List.map_cons, eraseKey]
      by_cases hk : k = code
      · simp [hk]
      · have h2 : ¬ π k = π code := fun he => hk (hπ he)
        rw [if_neg hk, if_neg h2, List.map_cons, ih]

/-- The tracker states of a renamed run and of the original run agree on
everything except that the `keyTimes` keys are renamed. -/
def RenRel (π : String → String) (s s' : TrackerState) : Prop :=
  s'.keyTimes = s.keyTimes.map (fun kv => (π kv.1, kv.2)) ∧
  s'.eventBuffer = s.eventBuffer ∧ s'.flushed = s.flushed

/-- Flushing preserves the renaming relation. -/
lemma flushIfFull_rename {π : String → String} {s s' : TrackerState}
    (h : RenRel π s s') : RenRel π (flushIfFull s) (flushIfFull s') := by
  obtain ⟨h1, h2, h3⟩ := h
  unfold flushIfFull RenRel
  rw [h2, h3]
  split_ifs with hc
  · exact ⟨h1, rfl, rfl⟩
  · exact ⟨h1, h2, h3⟩

/-- One listener invocation preserves the renaming relation. -/
lemma stepKey_rename (π : String → String) (hπ : Function.Injective π)
    (a : KeyAction) {s s' : TrackerState} (h : RenRel π s s') :
    RenRel π (stepKey s a) (stepKey s' (renameAction π a)) := by
  obtain ⟨h1, h2, h3⟩ := h
  cases a with
  | down code now =>
      simp only [stepKey, renameAction]
      rw [h1, lookupKey_rename π hπ]
      cases hl : lookupKey s.keyTimes code with
      | some t0 => exact ⟨h1, h2, h3⟩
      | none => exact ⟨rfl, h2, h3⟩
  | up code now =>
      simp only [stepKey, renameAction]
      rw [h1, lookupKey_rename π hπ]
      cases hl : lookupKey s.keyTimes code with
      | none => exact flushIfFull_rename ⟨h1, h2, h3⟩
      | some dt =>
          refine flushIfFull_rename ⟨?_, ?_, h3⟩
          · exact eraseKey_rename π hπ s.keyTimes code
          · exact congrArg
              (fun l => l ++ [(⟨"k", (now : ℤ) - (dt : ℤ), now⟩ :
                TrackedEvent)]) h2

/-- A whole renamed run preserves the renaming relation. -/
lemma foldl_rename (π : String → String) (hπ : Function.Injective π) :
    ∀ (l : List KeyAction) {s s' : TrackerState}, RenRel π s s' →
      RenRel π (l.foldl stepKey s)
        ((l.map (renameAction π)).foldl stepKey s') := by
  intro l
  induction l with
  | nil => intro s s' h; exact h
  | cons a rest ih =>
      intro s s' h
      rw [List.map_cons, List.foldl_cons, List.foldl_cons]
      exact ih (stepKey_rename π hπ a h)

/-- A buffered keystroke event is well-formed: its type tag is the literal
"k" and its remaining two fields are the dwell time of a matching
down/up pair of the trace and the keyup timestamp. -/
def KeystrokeEventOk (trace : List KeyAction) (e : TrackedEvent) : Prop :=
  e.type = "k" ∧ ∃ c td tu, KeyAction.down c td ∈ trace ∧
    KeyAction.up c tu ∈ trace ∧
    e = ⟨"k", (tu : ℤ) - (td : ℤ), tu⟩

/-- Claim C9: every keystroke event the tracker buffers (or flushes)
carries only the tag "k", a dwell time and the keyup timestamp — never
the key code — and consequently a run whose key codes are injectively
renamed (same timings, different keys) buffers and flushes identical
payloads. -/
theorem C9_keystroke_privacy (trace : List KeyAction) (π : String → String)
    (hπ : Function.Injective π) :
    (∀ e ∈ (runTracker trace).eventBuffer, KeystrokeEventOk trace e) ∧
    (∀ p ∈ (runTracker trace).flushed, ∀ e ∈ p, KeystrokeEventOk trace e) ∧
    (runTracker (trace.map (renameAction π))).eventBuffer =
      (runTracker trace).eventBuffer ∧
    (runTracker (trace.map (renameAction π))).flushed =
      (runTracker trace).flushed := by
  have hev := trackerFold_events (KeystrokeEventOk trace)
    (fun c td => KeyAction.down c td ∈ trace) trace
    { keyTimes := [], eventBuffer := [], flushed := [] }
    (fun c t' h => absurd h (List.not_mem_nil _))
    (fun e he => absurd he (List.not_mem_nil _))
    (fun p hp => absurd hp (List.not_mem_nil _))
    (fun c t' h => h)
    (fun c td tu hD hup => ⟨rfl, c, td, tu, hD, hup, rfl⟩)
  have hrel := @foldl_rename π hπ trace
    { keyTimes := [], eventBuffer := [], flushed := [] }
    { keyTimes := [], eventBuffer := [], flushed := [] }
    ⟨rfl, rfl, rfl⟩
  exact ⟨hev.1, hev.2, hrel.2.1, hrel.2.2⟩

/-- Witness for C9: swapping the codes KeyA and KeyB with identical
timings leaves the buffered payload unchanged. -/
theorem C9_keystroke_privacy_witness :
    (runTracker ([KeyAction.down "KeyA" 100,
        KeyAction.up "KeyA" 180].map (renameAction
          (fun c => if c = "KeyA" then "KeyB"
                    else if c = "KeyB" then "KeyA" else c)))).eventBuffer =
      (runTracker [KeyAction.down "KeyA" 100,
        KeyAction.up "KeyA" 180]).eventBuffer :=
  (C9_keystroke_privacy [KeyAction.down "KeyA" 100, KeyAction.up "KeyA" 180]
    (fun c => if c = "KeyA" then "KeyB"
              else if c = "KeyB" then "KeyA" else c)
    (by
      intro a b h
      by_cases ha1 : a = "KeyA" <;> by_cases hb1 : b = "KeyA" <;>
        by_cases ha2 : a = "KeyB" <;> by_cases hb2 : b = "KeyB" <;>
        simp_all)).2.2.1

/-! ## Claim C10: dataURLtoBlob -/

/-- Claim C10, behavior at the failing input: for the well-formed data URL
"data:;base64,QUJD" the MIME capture group exists but is empty, and the
code builds the Blob with the empty MIME type instead of the documented
"image/jpeg" fallback (its own warning message announces the fallback). -/
theorem C10_empty_mime_eval :
    dataURLtoBlob (some "data:;base64,QUJD") =
      Except.ok { type := "", bytes := [65, 66, 67] } ∧
    mimeCapture "data:;base64".data = some [] := by
  constructor <;> rfl

end Echelon
